import Mathlib

/-!
Shallow embedding of the lispy evaluator in `src/variables.c` (the variant
with an environment: `lval`, `lenv`, `lval_eval`, and the builtin
functions), together with proofs about it.

Modelling conventions:
* `long` numbers are embedded as `Int` (no claim under study exercises
  overflow, and signed overflow is undefined behaviour in C anyway).
* C strings are Lean `String`s; `lval_err`'s `vsnprintf(buf, 511, ...)`
  keeps at most 510 characters of the formatted message, embedded as
  `strTake msg 510`.
* The `lbuiltin` function pointers stored in `LVAL_FUN` values are
  defunctionalised into the tag type `bid`: the only pointers the program
  ever stores are the named builtins registered in `lenv_add_builtins`.
* Out-of-bounds cell accesses (`lval_pop` on an empty `cell` array, the
  `a->cell[0]` read in `builtin_def`) and the undefined behaviour of
  `x->num %= 0` are made explicit as `Except.error` results carrying a
  `rerr` tag (`emptyCell`, `modZero`).
* The C evaluator recurses without bound (e.g. through `builtin_eval`), so
  the embedded `lval_eval` takes a fuel argument and answers
  `Except.error .outOfFuel` when it runs out; one unit of fuel is spent
  per nesting level of evaluation.
-/

set_option linter.unusedVariables false

namespace Lispy

/-- Tags naming the builtin functions registered by `lenv_add_builtins`;
they stand for the `lbuiltin` function pointers of the C program. -/
inductive bid where
  | badd | bsub | bmul | bdiv | bmod
  | blist | bhead | btail | beval | bjoin | bcons | blen | binit | bdef
deriving DecidableEq

/-- The tagged value type `struct lval` of `src/variables.c` (lines 93-120).
The `cell` array of an s-expression or q-expression becomes a `List`. -/
inductive lval where
  | num (n : Int)
  | err (msg : String)
  | sym (s : String)
  | fn (f : bid)
  | sexpr (cells : List lval)
  | qexpr (cells : List lval)

/-- The environment `struct lenv` (lines 105-109): the parallel arrays
`syms`/`vals` become one ordered association list. -/
abbrev lenv := List (String × lval)

/-- Error tags for the situations the C program does not itself model as
`lval` errors: reading `cell[0]` of an empty cell array, `x->num %= 0`
(undefined behaviour), and the embedding's fuel running out. -/
inductive rerr where
  | emptyCell | modZero | outOfFuel
deriving DecidableEq

/-- strTake s n is the first n characters of s: the effect of
`vsnprintf` with a buffer capacity of n+1 bytes. -/
def strTake (s : String) (n : Nat) : String := String.mk (s.data.take n)

/-- lval_err (lines 133-161): builds an error value; the 511-byte
`vsnprintf` keeps at most 510 characters of the message. -/
def lval_err (msg : String) : lval := .err (strTake msg 510)

/-- ltype_name (lines 251-268), applied to a value's type tag. -/
def ltype_name : lval → String
  | .fn _ => "Function"
  | .num _ => "Number"
  | .err _ => "Error"
  | .sym _ => "Symbol"
  | .sexpr _ => "S-Expression"
  | .qexpr _ => "Q-Expression"

/-- The `sym` string of a value, as the C code reads `k->sym`; only ever
applied to `LVAL_SYM` values. -/
def lval.symOf : lval → String
  | .sym s => s
  | _ => ""

/-- The `num` field of a value, as the C code reads `y->num`; only ever
applied to `LVAL_NUM` values. -/
def lval.numOf : lval → Int
  | .num n => n
  | _ => 0

/-- Whether a value carries the `LVAL_NUM` tag. -/
def lval.isNum : lval → Bool
  | .num _ => true
  | _ => false

/-- Whether a value carries the `LVAL_ERR` tag. -/
def lval.isErr : lval → Bool
  | .err _ => true
  | _ => false

/-- Whether a value carries the `LVAL_SYM` tag. -/
def lval.isSym : lval → Bool
  | .sym _ => true
  | _ => false

/-- Whether a value carries the `LVAL_QEXPR` tag. -/
def lval.isQexpr : lval → Bool
  | .qexpr _ => true
  | _ => false

mutual

/-- lval_copy (lines 334-375): a deep structural copy. -/
def lval_copy : lval → lval
  | .fn f => .fn f
  | .num n => .num n
  | .err m => .err m
  | .sym s => .sym s
  | .sexpr cs => .sexpr (lval_copy_list cs)
  | .qexpr cs => .qexpr (lval_copy_list cs)

/-- The child-by-child copy loop of `lval_copy`'s SEXPR/QEXPR case. -/
def lval_copy_list : List lval → List lval
  | [] => []
  | c :: cs => lval_copy c :: lval_copy_list cs

end

/-- lenv_get (lines 424-438): scan the environment in order for the
symbol's name; on a hit return a copy of the stored value, on a miss
return the unbound-symbol error. -/
def lenv_get : lenv → lval → lval
  | [], k => lval_err ("unbound symbol '" ++ k.symOf ++ "'!")
  | (s, w) :: rest, k => if s = k.symOf then lval_copy w else lenv_get rest k

/-- lenv_put (lines 440-467): scan the environment in order; on a hit
replace that binding's value with a copy of the new value, on a miss
append a new binding at the end. -/
def lenv_put : lenv → lval → lval → lenv
  | [], k, v => [(k.symOf, lval_copy v)]
  | (s, w) :: rest, k, v =>
    if s = k.symOf then (s, lval_copy v) :: rest
    else (s, w) :: lenv_put rest k v

/-- One arithmetic combination step of `builtin_op`'s while loop (lines
597-621), for the operands already known not to trigger the division or
modulo guards. C's `/` and `%` truncate toward zero: `Int.div`/`Int.mod`.
An operator string matching none of the five leaves `x` unchanged. -/
def op_apply (op : String) (x y : Int) : Int :=
  if op = "+" then x + y
  else if op = "-" then x - y
  else if op = "*" then x * y
  else if op = "/" then Int.tdiv x y
  else if op = "%" then Int.tmod x y
  else x

/-- The while loop of `builtin_op` (lines 589-627) over the remaining
operands: a `/` step with right operand 0 replaces the accumulator with
the division-by-zero error and breaks; a `%` step with right operand 0
executes `x->num %= 0`, undefined behaviour in C (`.error .modZero`). -/
def op_loop (op : String) : Int → List Int → Except rerr lval
  | x, [] => .ok (.num x)
  | x, y :: ys =>
    if op = "/" ∧ y = 0 then .ok (lval_err "Division by zero!")
    else if op = "%" ∧ y = 0 then .error .modZero
    else op_loop op (op_apply op x y) ys

/-- builtin_op (lines 566-634): reject any non-number argument, pop the
first element (out of bounds when there is none), negate it for a unary
`-`, then fold the remaining operands through the while loop. -/
def builtin_op (e : lenv) (a : List lval) (op : String) : Except rerr lval :=
  if ¬ (a.all lval.isNum) then .ok (lval_err "Cannot operate on a non-number!")
  else
    match a with
    | [] => .error .emptyCell
    | x :: rest =>
      if op = "-" ∧ rest.length = 0 then .ok (.num (- x.numOf))
      else op_loop op x.numOf (rest.map lval.numOf)

/-- builtin_head (lines 638-654): LASSERT arity 1, then q-expression,
then non-empty; keep only the first element. -/
def builtin_head (e : lenv) (a : List lval) : Except rerr lval :=
  match a with
  | [v] =>
    match v with
    | .qexpr cs =>
      match cs with
      | [] => .ok (lval_err "Function 'head' passed \x7b\x7d!")
      | c :: _ => .ok (.qexpr [c])
    | other => .ok (lval_err ("Function 'head' passed incorrect type for argument 0!. Got "
        ++ ltype_name other ++ ", Expected Q-Expression"))
  | _ => .ok (lval_err ("Function 'head' passed too many arguments. Got "
      ++ toString a.length ++ ", Expected 1!"))

/-- builtin_tail (lines 658-672): LASSERT arity 1, then q-expression,
then non-empty; drop the first element. -/
def builtin_tail (e : lenv) (a : List lval) : Except rerr lval :=
  match a with
  | [v] =>
    match v with
    | .qexpr cs =>
      match cs with
      | [] => .ok (lval_err "Function 'tail' passed \x7b\x7d!")
      | _ :: rest => .ok (.qexpr rest)
    | other => .ok (lval_err ("Function 'tail' passed incorrect type for argument 0!. Got "
        ++ ltype_name other ++ ", Expected Q-Expression"))
  | _ => .ok (lval_err ("Function 'tail' passed too many arguments. Got "
      ++ toString a.length ++ ", Expected 1!"))

/-- builtin_list (lines 676-679): relabel the argument s-expression as a
q-expression. -/
def builtin_list (e : lenv) (a : List lval) : Except rerr lval :=
  .ok (.qexpr a)

/-- lval_join (lines 718-731): move every cell of `y` to the end of `x`.
Only ever reached with two q-expressions (guarded by `builtin_join`). -/
def lval_join (x y : lval) : lval :=
  match x, y with
  | .qexpr xs, .qexpr ys => .qexpr (xs ++ ys)
  | x, _ => x

/-- The index and value of the first element failing a check, as the
LASSERT loops of `builtin_join` and `builtin_def` report it. -/
def firstFailing (p : lval → Bool) : List lval → Nat → Option (Nat × lval)
  | [], _ => none
  | v :: vs, i => if p v then firstFailing p vs (i + 1) else some (i, v)

/-- The while loop of `builtin_join` (lines 709-711). -/
def join_loop : lval → List lval → lval
  | x, [] => x
  | x, y :: ys => join_loop (lval_join x y) ys

/-- builtin_join (lines 699-716): LASSERT every argument is a
q-expression (reporting the first offender's index), pop the first (out
of bounds when there is none) and join the rest onto it. -/
def builtin_join (e : lenv) (a : List lval) : Except rerr lval :=
  match firstFailing lval.isQexpr a 0 with
  | some (i, v) => .ok (lval_err ("Function 'join' passed incorrect type for argument "
      ++ toString i ++ "!. Got " ++ ltype_name v ++ ", Expected Q-Expression"))
  | none =>
    match a with
    | [] => .error .emptyCell
    | x :: rest => .ok (join_loop x rest)

/-- builtin_cons (lines 735-754): LASSERT arity 2, first argument a
q-expression or a number, second a q-expression; prepend the first
argument to the second argument's cells. -/
def builtin_cons (e : lenv) (a : List lval) : Except rerr lval :=
  match a with
  | [x, y] =>
    if ¬ (x.isQexpr ∨ x.isNum) then
      .ok (lval_err ("Function 'cons' passed incorrect type for argument 0!. Got "
        ++ ltype_name x ++ ", Expected Q-Expression or Number"))
    else
      match y with
      | .qexpr ys => .ok (.qexpr (x :: ys))
      | other => .ok (lval_err ("Function 'cons' passed incorrect type for argument 1!. Got "
          ++ ltype_name other ++ ", Expected Q-Expression"))
  | _ => .ok (lval_err ("Function 'cons' passed incorrect number of arguments. Got "
      ++ toString a.length ++ ", Expected 2"))

/-- builtin_init (lines 775-793): LASSERT arity 1, q-expression,
non-empty; keep every element but the last. -/
def builtin_init (e : lenv) (a : List lval) : Except rerr lval :=
  match a with
  | [v] =>
    match v with
    | .qexpr cs =>
      match cs with
      | [] => .ok (lval_err "Function 'init' passed \x7b\x7d!")
      | _ :: _ => .ok (.qexpr cs.dropLast)
    | other => .ok (lval_err ("Function 'init' passed incorrect type for argument 0!. Got "
        ++ ltype_name other ++ ", Expected Q-Expression"))
  | _ => .ok (lval_err ("Function 'init' passed too many arguments. Got "
      ++ toString a.length ++ ", Expected 1"))

/-- The assignment loop of `builtin_def` (lines 821-823): bind each
symbol in order to the correspondingly-positioned value. -/
def def_put_all : lenv → List lval → List lval → lenv
  | e, s :: ss, v :: vs => def_put_all (lenv_put e s v) ss vs
  | e, _, _ => e

/-- builtin_def (lines 797-828): the first LASSERT reads `a->cell[0]`
(out of bounds when `a` is empty) and requires a q-expression; every
element of that q-expression must be a symbol, and the symbol count must
equal the count of remaining arguments; then each symbol is bound in
order and an empty s-expression is returned. -/
def builtin_def (e : lenv) (a : List lval) : lenv × Except rerr lval :=
  match a with
  | [] => (e, .error .emptyCell)
  | syms :: vals =>
    match syms with
    | .qexpr ss =>
      match firstFailing lval.isSym ss 0 with
      | some _ => (e, .ok (lval_err "Function 'def' cannot define non-symbol"))
      | none =>
        if ss.length = vals.length then
          (def_put_all e ss vals, .ok (.sexpr []))
        else
          (e, .ok (lval_err "Function 'def' cannot define incorrect number of values to symbols"))
    | other => (e, .ok (lval_err ("Function 'def' passed incorrect type for argument 0!. Got "
        ++ ltype_name other ++ ", Expected Q-Expression")))

/-- builtin_eval (lines 683-695), parameterised by the evaluator it
recurses into: LASSERT arity 1 and q-expression, then relabel the
q-expression as an s-expression and evaluate it. -/
def builtin_eval (ev : lenv → lval → lenv × Except rerr lval)
    (e : lenv) (a : List lval) : lenv × Except rerr lval :=
  match a with
  | [v] =>
    match v with
    | .qexpr cs => ev e (.sexpr cs)
    | other => (e, .ok (lval_err ("Function 'eval' passed incorrect type for argument 0!. Got "
        ++ ltype_name other ++ ", Expected Q-Expression")))
  | _ => (e, .ok (lval_err ("Function 'eval' passed too many arguments. Got "
      ++ toString a.length ++ ", Expected 1!")))

/-- builtin_len (lines 758-771), parameterised by the evaluator it
recurses into: LASSERT arity 1 and q-expression, then evaluate an
s-expression holding the child count as a number. -/
def builtin_len (ev : lenv → lval → lenv × Except rerr lval)
    (e : lenv) (a : List lval) : lenv × Except rerr lval :=
  match a with
  | [v] =>
    match v with
    | .qexpr cs => ev e (.sexpr [.num cs.length])
    | other => (e, .ok (lval_err ("Function 'len' passed incorrect type for argument 0!. Got "
        ++ ltype_name other ++ ", Expected Q-Expression")))
  | _ => (e, .ok (lval_err ("Function 'len' passed too many arguments. Got "
      ++ toString a.length ++ ", Expected 1")))

/-- Dispatch on a stored builtin function pointer (the call
`f->fun(e, v)` at line 510): each tag runs the C function it names,
wrappers `builtin_add` .. `builtin_mod` (lines 832-836) included. -/
def runBuiltin (ev : lenv → lval → lenv × Except rerr lval)
    (b : bid) (e : lenv) (a : List lval) : lenv × Except rerr lval :=
  match b with
  | .badd => (e, builtin_op e a "+")
  | .bsub => (e, builtin_op e a "-")
  | .bmul => (e, builtin_op e a "*")
  | .bdiv => (e, builtin_op e a "/")
  | .bmod => (e, builtin_op e a "%")
  | .blist => (e, builtin_list e a)
  | .bhead => (e, builtin_head e a)
  | .btail => (e, builtin_tail e a)
  | .beval => builtin_eval ev e a
  | .bjoin => (e, builtin_join e a)
  | .bcons => (e, builtin_cons e a)
  | .blen => builtin_len ev e a
  | .binit => (e, builtin_init e a)
  | .bdef => builtin_def e a

/-- The child-evaluation loop of `lval_eval_sexpr` (lines 475-477),
parameterised by the evaluator: evaluate every child left to right,
threading the (mutable) environment. -/
def eval_children (ev : lenv → lval → lenv × Except rerr lval) :
    lenv → List lval → lenv × Except rerr (List lval)
  | e, [] => (e, .ok [])
  | e, c :: cs =>
    match ev e c with
    | (e1, .error k) => (e1, .error k)
    | (e1, .ok v) =>
      match eval_children ev e1 cs with
      | (e2, .error k) => (e2, .error k)
      | (e2, .ok vs) => (e2, .ok (v :: vs))

/-- The phases of `lval_eval_sexpr` after the children are evaluated
(lines 479-513): return the first evaluated child that is an error;
return an empty s-expression unchanged; unwrap a singleton; otherwise
pop the head, require it to be a function, and call it on the rest. -/
def sexpr_post (ev : lenv → lval → lenv × Except rerr lval)
    (e : lenv) (vs : List lval) : lenv × Except rerr lval :=
  match vs.find? lval.isErr with
  | some w => (e, .ok w)
  | none =>
    match vs with
    | [] => (e, .ok (.sexpr []))
    | [x] => (e, .ok x)
    | f :: a1 :: rest =>
      match f with
      | .fn b => runBuiltin ev b e (a1 :: rest)
      | _ => (e, .ok (lval_err "First element is not a function"))

/-- lval_eval_sexpr (lines 471-515), parameterised by the evaluator used
on the children and inside builtins. -/
def lval_eval_sexpr (ev : lenv → lval → lenv × Except rerr lval)
    (e : lenv) (cells : List lval) : lenv × Except rerr lval :=
  match eval_children ev e cells with
  | (e1, .error k) => (e1, .error k)
  | (e1, .ok vs) => sexpr_post ev e1 vs

/-- lval_eval (lines 519-544): a symbol is looked up in the environment,
an s-expression is evaluated by `lval_eval_sexpr`, everything else
evaluates to itself. Fuel bounds the nesting depth of evaluation. -/
def lval_eval : Nat → lenv → lval → lenv × Except rerr lval
  | 0, e, _ => (e, .error .outOfFuel)
  | fuel + 1, e, v =>
    match v with
    | .sym s => (e, .ok (lenv_get e (.sym s)))
    | .sexpr cells => lval_eval_sexpr (lval_eval fuel) e cells
    | v => (e, .ok v)

/-- Whether the needle occurs as a contiguous substring of the haystack:
C's `strstr(haystack, needle) != NULL` (an empty needle always occurs). -/
def strstr_has : List Char → List Char → Bool
  | h, n => n.isPrefixOf h ||
    match h with
    | [] => false
    | _ :: t => strstr_has t n

/-- The string-keyed dispatcher `builtin` (lines 840-855). It is not
called by the evaluator (which calls the stored function pointer
directly); it is the only place constructing the "Unknown Function!"
error. Its `eval`/`len` cases recurse into `lval_eval` with the given
fuel. Note it dispatches neither "def" nor "%". -/
def builtin (fuel : Nat) (e : lenv) (a : List lval) (func : String) :
    lenv × Except rerr lval :=
  if func = "list" then (e, builtin_list e a)
  else if func = "head" then (e, builtin_head e a)
  else if func = "tail" then (e, builtin_tail e a)
  else if func = "join" then (e, builtin_join e a)
  else if func = "eval" then builtin_eval (lval_eval fuel) e a
  else if func = "cons" then (e, builtin_cons e a)
  else if func = "len" then builtin_len (lval_eval fuel) e a
  else if func = "init" then (e, builtin_init e a)
  else if strstr_has "+-/*".data func.data then (e, builtin_op e a func)
  else (e, .ok (lval_err "Unknown Function!"))

/-- lenv_new (lines 204-210): the empty environment. -/
def lenv_new : lenv := []

/-- lenv_add_builtin (lines 859-867). -/
def lenv_add_builtin (e : lenv) (name : String) (f : bid) : lenv :=
  lenv_put e (.sym name) (.fn f)

/-- lenv_add_builtins (lines 871-898): register every builtin, in the
source's order. -/
def lenv_add_builtins (e : lenv) : lenv :=
  [("list", bid.blist), ("head", bid.bhead), ("tail", bid.btail),
   ("eval", bid.beval), ("join", bid.bjoin), ("cons", bid.bcons),
   ("len", bid.blen), ("init", bid.binit), ("def", bid.bdef),
   ("+", bid.badd), ("-", bid.bsub), ("*", bid.bmul),
   ("/", bid.bdiv), ("%", bid.bmod),
   ("add", bid.badd), ("sub", bid.bsub), ("mul", bid.bmul),
   ("div", bid.bdiv), ("mod", bid.bmod)].foldl
    (fun acc p => lenv_add_builtin acc p.1 p.2) e

/-- The environment the REPL starts from (lines 926-927). -/
def e0 : lenv := lenv_add_builtins lenv_new

mutual

/-- Whether no subterm of a value is an error carrying the message that
only the (unreachable) string dispatcher `builtin` constructs. -/
def noUF : lval → Bool
  | .err m => m != "Unknown Function!"
  | .sexpr cs => noUF_list cs
  | .qexpr cs => noUF_list cs
  | _ => true

/-- `noUF` for every element of a list of values. -/
def noUF_list : List lval → Bool
  | [] => true
  | c :: cs => noUF c && noUF_list cs

end

/-- Every value bound in the environment satisfies `noUF`. -/
def envNoUF (e : lenv) : Prop := ∀ p ∈ e, noUF p.2 = true

/-- A 500-character symbol name, for exercising `lval_err`'s 510-character
message capacity. -/
def longName : String := String.mk (List.replicate 500 'a')

mutual

/-- `lval_copy` is content-preserving: in the embedding a deep copy is the
value itself. -/
theorem copy_id : ∀ v : lval, lval_copy v = v
  | .num _ => rfl
  | .err _ => rfl
  | .sym _ => rfl
  | .fn _ => rfl
  | .sexpr cs => by rw [lval_copy, copy_list_id cs]
  | .qexpr cs => by rw [lval_copy, copy_list_id cs]

/-- `lval_copy_list` is content-preserving. -/
theorem copy_list_id : ∀ l : List lval, lval_copy_list l = l
  | [] => rfl
  | c :: cs => by rw [lval_copy_list, copy_id c, copy_list_id cs]

end

/-- Rebuilding a string from its characters gives the string back. -/
theorem mk_data_eq (s : String) : String.mk s.data = s := by
  cases s; rfl

/-- `strTake` is the identity on strings short enough. -/
theorem strTake_of_le {s : String} {n : Nat} (h : s.length ≤ n) :
    strTake s n = s := by
  unfold strTake
  rw [List.take_of_length_le h, mk_data_eq]

/-- The length of a truncated string. -/
theorem strTake_length (s : String) (n : Nat) :
    (strTake s n).length = min n s.length := by
  unfold strTake
  show (s.data.take n).length = min n s.data.length
  exact s.data.length_take n

/-- `lval_err` keeps a message of at most 510 characters intact. -/
theorem lval_err_of_le {s : String} (h : s.length ≤ 510) :
    lval_err s = .err s := by
  unfold lval_err
  rw [strTake_of_le h]

/-- C9: applying `def` to the single argument `{}` (an empty q-expression)
binds nothing, leaves every existing binding of the environment unchanged,
and returns an empty s-expression. -/
theorem def_empty_qexpr_noop (e : lenv) :
    builtin_def e [.qexpr []] = (e, .ok (.sexpr [])) := rfl

/-- C2: a `/` fold step with right operand 0 yields the division-by-zero
error, but the corresponding `%` step performs `x->num %= 0`, which is
undefined behaviour in C instead of the claimed DivisionByZero error:
evaluated at the claim's own operand lists `[4, 0]` and `[7, 0]`. -/
theorem mod_by_zero_is_ub :
    builtin_op [] [.num 4, .num 0] "/" = .ok (lval_err "Division by zero!") ∧
    builtin_op [] [.num 7, .num 0] "%" = .error .modZero := ⟨rfl, rfl⟩

/-- C1 counterexample: `cons` with a Symbol first argument does not
prepend it; the claim fails at the argument list `[x, {}]`. -/
theorem cons_rejects_symbol_first_arg :
    builtin_cons [] [.sym "x", .qexpr []] ≠ .ok (.qexpr [.sym "x"]) := by
  simp [builtin_cons, lval.isQexpr, lval.isNum, lval_err, ltype_name]

/-- C1 (amended): `cons` on a two-element argument list whose second
element is a q-expression accepts a first argument of variant Number or
QExpression, returning a q-expression holding the first argument followed
by the second argument's children; every other first-argument variant is
rejected with a type-mismatch error. -/
theorem cons_prepends_num_or_qexpr (e : lenv) (x : lval) (ys : List lval) :
    ((x.isQexpr ∨ x.isNum) →
      builtin_cons e [x, .qexpr ys] = .ok (.qexpr (x :: ys))) ∧
    (¬ (x.isQexpr ∨ x.isNum) →
      builtin_cons e [x, .qexpr ys] =
        .ok (lval_err ("Function 'cons' passed incorrect type for argument 0!. Got "
          ++ ltype_name x ++ ", Expected Q-Expression or Number"))) := by
  constructor
  · intro h
    simp only [builtin_cons, if_neg (not_not_intro h)]
  · intro h
    simp only [builtin_cons, if_pos h]

/-- C1 witness: at the concrete inputs `cons 7 {}` and `cons {} {8}`. -/
theorem cons_prepends_num_or_qexpr_witness :
    builtin_cons [] [.num 7, .qexpr []] = .ok (.qexpr [.num 7]) ∧
    builtin_cons [] [.qexpr [], .qexpr [.num 8]] =
      .ok (.qexpr [.qexpr [], .num 8]) :=
  ⟨(cons_prepends_num_or_qexpr [] (.num 7) []).1 (by simp [lval.isNum]),
   (cons_prepends_num_or_qexpr [] (.qexpr []) [.num 8]).1 (by simp [lval.isQexpr])⟩

/-- C4: evaluating an s-expression with zero children returns the empty
s-expression itself, and evaluating an s-expression with exactly one
child whose evaluation is not an error returns that child's evaluation
directly, whatever its variant. -/
theorem eval_sexpr_empty_and_singleton :
    (∀ (fuel : Nat) (e : lenv),
      lval_eval (fuel + 1) e (.sexpr []) = (e, .ok (.sexpr []))) ∧
    (∀ (fuel : Nat) (e : lenv) (c : lval) (e2 : lenv) (w : lval),
      lval_eval fuel e c = (e2, .ok w) → w.isErr = false →
      lval_eval (fuel + 1) e (.sexpr [c]) = (e2, .ok w)) := by
  constructor
  · intro fuel e
    rfl
  · intro fuel e c e2 w h hw
    show lval_eval_sexpr (lval_eval fuel) e [c] = (e2, .ok w)
    unfold lval_eval_sexpr eval_children
    rw [h]
    simp [eval_children, sexpr_post, List.find?, hw]

/-- C4 witness: the empty s-expression, and the singleton `(5)`. -/
theorem eval_sexpr_empty_and_singleton_witness :
    lval_eval 1 [] (.sexpr []) = ([], .ok (.sexpr [])) ∧
    lval_eval 2 [] (.sexpr [.num 5]) = ([], .ok (.num 5)) :=
  ⟨eval_sexpr_empty_and_singleton.1 0 [],
   eval_sexpr_empty_and_singleton.2 1 [] (.num 5) [] (.num 5) rfl rfl⟩

/-- The operator loop computes a left fold for the operators without a
zero-operand guard (`+`, `-`, `*`). -/
theorem op_loop_total (op : String) (f : Int → Int → Int)
    (hop : op ≠ "/" ∧ op ≠ "%") (hf : ∀ x y, op_apply op x y = f x y) :
    ∀ (ys : List Int) (x : Int), op_loop op x ys = .ok (.num (ys.foldl f x))
  | [], x => rfl
  | y :: ys, x => by
    rw [op_loop, if_neg (fun h => hop.1 h.1), if_neg (fun h => hop.2 h.1), hf,
        op_loop_total op f hop hf ys (f x y)]
    rfl

/-- The operator loop computes a left fold whenever no operand after the
first is zero (in particular for `/` and `%`). -/
theorem op_loop_nonzero (op : String) (f : Int → Int → Int)
    (hf : ∀ x y, op_apply op x y = f x y) :
    ∀ (ys : List Int) (x : Int), (∀ y ∈ ys, y ≠ 0) →
      op_loop op x ys = .ok (.num (ys.foldl f x))
  | [], x, _ => rfl
  | y :: ys, x, h => by
    have hy : y ≠ 0 := h y (List.mem_cons_self y ys)
    rw [op_loop, if_neg (fun hc => hy hc.2), if_neg (fun hc => hy hc.2), hf,
        op_loop_nonzero op f hf ys (f x y)
          (fun z hz => h z (List.mem_cons_of_mem y hz))]
    rfl

/-- On an all-number argument list, `builtin_op` reduces to the unary
negation special case or to the operator loop on the raw integers. -/
theorem builtin_op_on_nums (e : lenv) (op : String) (x : Int) (xs : List Int) :
    builtin_op e ((x :: xs).map lval.num) op =
      if op = "-" ∧ xs.length = 0 then .ok (.num (-x))
      else op_loop op x xs := by
  have hall : ((x :: xs).map lval.num).all lval.isNum = true := by
    simp [List.all_map, lval.isNum, Function.comp]
  unfold builtin_op
  rw [if_neg (not_not_intro hall)]
  have hcomp : lval.numOf ∘ lval.num = id := rfl
  have hmaps : (xs.map lval.num).map lval.numOf = xs := by
    rw [List.map_map, hcomp, List.map_id]
  simp only [List.map_cons, List.length_map, lval.numOf, hmaps]

/-- C5: on a non-empty all-number argument list the arithmetic builtins
compute a left fold from the first argument (`-` on a single argument
negates it), with the claim's concrete cases evaluated in the builtins
environment. -/
theorem builtin_op_folds (e : lenv) (x : Int) (xs : List Int) :
    (builtin_op e ((x :: xs).map lval.num) "+" = .ok (.num (xs.foldl (· + ·) x))) ∧
    (builtin_op e ((x :: xs).map lval.num) "*" = .ok (.num (xs.foldl (· * ·) x))) ∧
    (xs ≠ [] → builtin_op e ((x :: xs).map lval.num) "-" = .ok (.num (xs.foldl (· - ·) x))) ∧
    (builtin_op e [.num x] "-" = .ok (.num (-x))) ∧
    ((∀ y ∈ xs, y ≠ 0) → builtin_op e ((x :: xs).map lval.num) "/" = .ok (.num (xs.foldl Int.tdiv x))) ∧
    ((∀ y ∈ xs, y ≠ 0) → builtin_op e ((x :: xs).map lval.num) "%" = .ok (.num (xs.foldl Int.tmod x))) ∧
    (lval_eval 3 e0 (.sexpr [.sym "+", .num 1, .num 2, .num 3]) = (e0, .ok (.num 6))) ∧
    (lval_eval 3 e0 (.sexpr [.sym "-", .num 5]) = (e0, .ok (.num (-5)))) ∧
    (lval_eval 3 e0 (.sexpr [.sym "*", .num 2, .num 3, .num 4]) = (e0, .ok (.num 24))) ∧
    (lval_eval 3 e0 (.sexpr [.sym "%", .num 7, .num 3]) = (e0, .ok (.num 1))) := by
  refine ⟨?_, ?_, ?_, ?_, ?_, ?_, rfl, rfl, rfl, rfl⟩
  · rw [builtin_op_on_nums, if_neg (fun h => by exact absurd h.1 (by decide)),
        op_loop_total "+" (· + ·) (by decide) (fun a b => rfl)]
  · rw [builtin_op_on_nums, if_neg (fun h => by exact absurd h.1 (by decide)),
        op_loop_total "*" (· * ·) (by decide) (fun a b => rfl)]
  · intro hne
    rw [builtin_op_on_nums,
        if_neg (fun h => hne (List.length_eq_zero.mp h.2)),
        op_loop_total "-" (· - ·) (by decide) (fun a b => rfl)]
  · show builtin_op e ((x :: []).map lval.num) "-" = .ok (.num (-x))
    rw [builtin_op_on_nums, if_pos ⟨rfl, rfl⟩]
  · intro hz
    rw [builtin_op_on_nums, if_neg (fun h => by exact absurd h.1 (by decide)),
        op_loop_nonzero "/" Int.tdiv (fun a b => rfl) xs x hz]
  · intro hz
    rw [builtin_op_on_nums, if_neg (fun h => by exact absurd h.1 (by decide)),
        op_loop_nonzero "%" Int.tmod (fun a b => rfl) xs x hz]

/-- C5 witness: the fold conjuncts applied at `(+ 1 2 3)`, `(- 5 1)`,
`(- 5)`, `(/ 8 2)` and `(% 7 3)` as argument lists. -/
theorem builtin_op_folds_witness :
    builtin_op [] [.num 1, .num 2, .num 3] "+" = .ok (.num 6) ∧
    builtin_op [] [.num 5, .num 1] "-" = .ok (.num 4) ∧
    builtin_op [] [.num 5] "-" = .ok (.num (-5)) ∧
    builtin_op [] [.num 8, .num 2] "/" = .ok (.num 4) ∧
    builtin_op [] [.num 7, .num 3] "%" = .ok (.num 1) :=
  ⟨(builtin_op_folds [] 1 [2, 3]).1,
   (builtin_op_folds [] 5 [1]).2.2.1 (by simp),
   (builtin_op_folds [] 5 []).2.2.2.1,
   (builtin_op_folds [] 8 [2]).2.2.2.2.1 (by simp),
   (builtin_op_folds [] 7 [3]).2.2.2.2.2.1 (by simp)⟩

/-- `lenv_put` on a name already bound replaces the first matching
binding's value in place. -/
theorem lenv_put_hit : ∀ (e1 e2 : lenv) (k : String) (v w : lval),
    (∀ p ∈ e1, p.1 ≠ k) →
    lenv_put (e1 ++ (k, w) :: e2) (.sym k) v = e1 ++ (k, lval_copy v) :: e2
  | [], e2, k, v, w, h => by
    simp [lenv_put, lval.symOf]
  | (s, u) :: rest, e2, k, v, w, h => by
    have hs : s ≠ k := h (s, u) (List.mem_cons_self _ _)
    show lenv_put ((s, u) :: (rest ++ (k, w) :: e2)) (.sym k) v =
      (s, u) :: (rest ++ (k, lval_copy v) :: e2)
    simp only [lenv_put, lval.symOf, if_neg hs]
    exact congrArg (List.cons (s, u))
      (lenv_put_hit rest e2 k v w (fun p hp => h p (List.mem_cons_of_mem _ hp)))

/-- `lenv_put` on an unbound name appends one binding at the end. -/
theorem lenv_put_miss : ∀ (e : lenv) (k : String) (v : lval),
    (∀ p ∈ e, p.1 ≠ k) → lenv_put e (.sym k) v = e ++ [(k, lval_copy v)]
  | [], k, v, h => rfl
  | (s, u) :: rest, k, v, h => by
    have hs : s ≠ k := h (s, u) (List.mem_cons_self _ _)
    show lenv_put ((s, u) :: rest) (.sym k) v =
      (s, u) :: (rest ++ [(k, lval_copy v)])
    simp only [lenv_put, lval.symOf, if_neg hs]
    exact congrArg (List.cons (s, u))
      (lenv_put_miss rest k v (fun p hp => h p (List.mem_cons_of_mem _ hp)))

/-- The names after a `lenv_put`: unchanged on a hit, the new name
appended on a miss. -/
theorem lenv_put_map_fst : ∀ (e : lenv) (k v : lval),
    (lenv_put e k v).map Prod.fst =
      if k.symOf ∈ e.map Prod.fst then e.map Prod.fst
      else e.map Prod.fst ++ [k.symOf]
  | [], k, v => by simp [lenv_put]
  | (s, u) :: rest, k, v => by
    by_cases hs : s = k.symOf
    · subst hs
      simp [lenv_put]
    · simp only [lenv_put, if_neg hs, List.map_cons, lenv_put_map_fst rest k v,
        List.mem_cons]
      have hns : ¬(k.symOf = s) := fun hh => hs hh.symm
      by_cases hm : k.symOf ∈ rest.map Prod.fst
      · simp [hm]
      · simp [hm, hns]

/-- `lenv_put` preserves distinctness of the bound names. -/
theorem lenv_put_nodup (e : lenv) (k v : lval)
    (h : (e.map Prod.fst).Nodup) :
    ((lenv_put e k v).map Prod.fst).Nodup := by
  rw [lenv_put_map_fst]
  split
  · exact h
  · next hm => simp [List.nodup_append, h, hm]

/-- C6: `put` of a bound name replaces that binding's value with a deep
copy in place (names, order and size unchanged); `put` of a new name
appends one binding; names stay distinct under any sequence of puts from
the empty environment; and rebinding `x` twice leaves one binding with
the second value. -/
theorem lenv_put_replace_or_append :
    (∀ (e1 e2 : lenv) (k : String) (v w : lval), (∀ p ∈ e1, p.1 ≠ k) →
      lenv_put (e1 ++ (k, w) :: e2) (.sym k) v = e1 ++ (k, lval_copy v) :: e2) ∧
    (∀ (e : lenv) (k : String) (v : lval), (∀ p ∈ e, p.1 ≠ k) →
      lenv_put e (.sym k) v = e ++ [(k, lval_copy v)]) ∧
    (∀ (e : lenv) (k v : lval), (e.map Prod.fst).Nodup →
      ((lenv_put e k v).map Prod.fst).Nodup) ∧
    (∀ ops : List (String × lval),
      (((ops.foldl (fun acc p => lenv_put acc (.sym p.1) p.2) lenv_new)).map
        Prod.fst).Nodup) ∧
    (lenv_put (lenv_put lenv_new (.sym "x") (.num 1)) (.sym "x") (.num 2) =
      [("x", .num 2)]) := by
  refine ⟨lenv_put_hit, lenv_put_miss, lenv_put_nodup, ?_, rfl⟩
  have key : ∀ (ops : List (String × lval)) (e : lenv),
      (e.map Prod.fst).Nodup →
      (((ops.foldl (fun acc p => lenv_put acc (.sym p.1) p.2) e)).map
        Prod.fst).Nodup := by
    intro ops
    induction ops with
    | nil => intro e h; exact h
    | cons p ops ih =>
      intro e h
      exact ih (lenv_put e (.sym p.1) p.2) (lenv_put_nodup e (.sym p.1) p.2 h)
  exact fun ops => key ops lenv_new (by simp [lenv_new])

/-- C6 witness: a put of a fresh name onto a one-binding environment. -/
theorem lenv_put_replace_or_append_witness :
    lenv_put [("y", lval.num 3)] (.sym "x") (.num 5) =
      [("y", lval.num 3)] ++ [("x", lval_copy (.num 5))] :=
  lenv_put_replace_or_append.2.1 [("y", .num 3)] "x" (.num 5) (by simp)

/-- `lenv_get` on an unbound name returns the (truncated) unbound-symbol
error. -/
theorem lenv_get_miss : ∀ (e : lenv) (k : String), (∀ p ∈ e, p.1 ≠ k) →
    lenv_get e (.sym k) = .err (strTake ("unbound symbol '" ++ k ++ "'!") 510)
  | [], k, h => rfl
  | (s, u) :: rest, k, h => by
    have hs : s ≠ k := h (s, u) (List.mem_cons_self _ _)
    simp only [lenv_get, lval.symOf, if_neg hs]
    exact lenv_get_miss rest k (fun p hp => h p (List.mem_cons_of_mem _ hp))

/-- `lenv_get` on a bound name returns a copy of the first matching
binding's value. -/
theorem lenv_get_hit : ∀ (e1 e2 : lenv) (k : String) (v : lval),
    (∀ p ∈ e1, p.1 ≠ k) →
    lenv_get (e1 ++ (k, v) :: e2) (.sym k) = lval_copy v
  | [], e2, k, v, h => by simp [lenv_get, lval.symOf]
  | (s, u) :: rest, e2, k, v, h => by
    have hs : s ≠ k := h (s, u) (List.mem_cons_self _ _)
    show lenv_get ((s, u) :: (rest ++ (k, v) :: e2)) (.sym k) = lval_copy v
    simp only [lenv_get, lval.symOf, if_neg hs]
    exact lenv_get_hit rest e2 k v (fun p hp => h p (List.mem_cons_of_mem _ hp))

/-- The length of the unbound-symbol message. -/
theorem unbound_msg_length (k : String) :
    ("unbound symbol '" ++ k ++ "'!").length = k.length + 18 := by
  rw [String.length_append, String.length_append]
  have e1 : ("unbound symbol '" : String).length = 16 := rfl
  have e2 : ("'!" : String).length = 2 := rfl
  omega

/-- C7 counterexample: for a 500-character unbound name the message is
truncated to 510 characters, so it is not the claimed full string. -/
theorem lenv_get_truncates_long_names :
    lenv_get [] (.sym longName) ≠ .err ("unbound symbol '" ++ longName ++ "'!") := by
  intro h
  have h0 : lenv_get [] (.sym longName) =
      .err (strTake ("unbound symbol '" ++ longName ++ "'!") 510) := rfl
  rw [h0] at h
  simp only [lval.err.injEq] at h
  have h3 := congrArg String.length h
  rw [strTake_length, unbound_msg_length] at h3
  have h4 : longName.length = 500 := by
    show (List.replicate 500 'a').length = 500
    exact List.length_replicate 500 'a'
  rw [h4] at h3
  exact absurd h3 (by decide)

/-- C7 (amended): `get` of an unbound name returns the unbound-symbol
error with message `unbound symbol '<name>'!` truncated to `lval_err`'s
510-character capacity — the exact message whenever the name has at most
492 characters; `get` of a bound name returns a deep copy of its value;
and evaluating a Symbol returns exactly the `get` result. -/
theorem lenv_get_spec :
    (∀ (e : lenv) (k : String), (∀ p ∈ e, p.1 ≠ k) →
      lenv_get e (.sym k) =
        .err (strTake ("unbound symbol '" ++ k ++ "'!") 510)) ∧
    (∀ (e : lenv) (k : String), (∀ p ∈ e, p.1 ≠ k) → k.length ≤ 492 →
      lenv_get e (.sym k) = .err ("unbound symbol '" ++ k ++ "'!")) ∧
    (∀ (e1 e2 : lenv) (k : String) (v : lval), (∀ p ∈ e1, p.1 ≠ k) →
      lenv_get (e1 ++ (k, v) :: e2) (.sym k) = lval_copy v) ∧
    (∀ (fuel : Nat) (e : lenv) (k : String),
      lval_eval (fuel + 1) e (.sym k) = (e, .ok (lenv_get e (.sym k)))) := by
  refine ⟨lenv_get_miss, ?_, lenv_get_hit, fun fuel e k => rfl⟩
  intro e k h hlen
  rw [lenv_get_miss e k h, strTake_of_le]
  rw [unbound_msg_length]
  omega

/-- C7 witness: an unbound lookup on a one-binding environment, with the
exact message. -/
theorem lenv_get_spec_witness :
    lenv_get [("y", lval.num 1)] (.sym "x") = .err ("unbound symbol '" ++ "x" ++ "'!") :=
  lenv_get_spec.2.1 [("y", .num 1)] "x" (by simp) (by decide)

/-- `List.find?` returns the leftmost element satisfying the predicate. -/
theorem find?_append_first (p : lval → Bool) :
    ∀ (l1 : List lval) (w : lval) (l2 : List lval),
      (∀ x ∈ l1, p x = false) → p w = true →
      (l1 ++ w :: l2).find? p = some w
  | [], w, l2, h1, hw => by simp [List.find?_cons_of_pos, hw]
  | x :: l1, w, l2, h1, hw => by
    have hx : p x = false := h1 x (List.mem_cons_self _ _)
    rw [List.cons_append, List.find?_cons_of_neg _ (by simp [hx])]
    exact find?_append_first p l1 w l2
      (fun y hy => h1 y (List.mem_cons_of_mem _ hy)) hw

/-- C3: after all children of an s-expression are evaluated left to
right, if some evaluated child is an error then the evaluator returns
the leftmost such error unchanged and invokes no builtin; concretely,
`(+ 1 (/ 1 0) (/ 1 1))` evaluates to the division-by-zero error. -/
theorem eval_sexpr_first_error_wins :
    (∀ (fuel : Nat) (e : lenv) (cells : List lval) (e1 : lenv)
        (vs1 : List lval) (w : lval) (vs2 : List lval),
      eval_children (lval_eval fuel) e cells = (e1, .ok (vs1 ++ w :: vs2)) →
      (∀ x ∈ vs1, x.isErr = false) → w.isErr = true →
      lval_eval (fuel + 1) e (.sexpr cells) = (e1, .ok w)) ∧
    (lval_eval 10 e0 (.sexpr [.sym "+", .num 1,
        .sexpr [.sym "/", .num 1, .num 0],
        .sexpr [.sym "/", .num 1, .num 1]]) =
      (e0, .ok (.err "Division by zero!"))) := by
  constructor
  · intro fuel e cells e1 vs1 w vs2 hch h1 hw
    show lval_eval_sexpr (lval_eval fuel) e cells = (e1, .ok w)
    unfold lval_eval_sexpr
    rw [hch]
    show sexpr_post (lval_eval fuel) e1 (vs1 ++ w :: vs2) = (e1, .ok w)
    unfold sexpr_post
    rw [find?_append_first lval.isErr vs1 w vs2 h1 hw]
  · rfl

/-- C3 witness: an s-expression whose single evaluated child is an
error. -/
theorem eval_sexpr_first_error_wins_witness :
    lval_eval 2 [] (.sexpr [.err "boom"]) = ([], .ok (.err "boom")) :=
  eval_sexpr_first_error_wins.1 1 [] [.err "boom"] [] [] (.err "boom") []
    rfl (by simp) rfl

/-- The operator loop never reports an empty-cell access. -/
theorem op_loop_ne_empty (op : String) :
    ∀ (ys : List Int) (x : Int), op_loop op x ys ≠ .error .emptyCell
  | [], x => by simp [op_loop]
  | y :: ys, x => by
    rw [op_loop]
    split
    · simp
    · split
      · simp
      · exact op_loop_ne_empty op ys (op_apply op x y)

/-- `builtin_op` on a non-empty argument list never reports an
empty-cell access. -/
theorem builtin_op_ne_empty (e : lenv) (op : String) (x : lval)
    (rest : List lval) : builtin_op e (x :: rest) op ≠ .error .emptyCell := by
  unfold builtin_op
  split
  · simp
  · dsimp only
    split
    · simp
    · exact op_loop_ne_empty op _ _

/-- `builtin_join` on a non-empty argument list never reports an
empty-cell access. -/
theorem builtin_join_ne_empty (e : lenv) (x : lval) (rest : List lval) :
    builtin_join e (x :: rest) ≠ .error .emptyCell := by
  unfold builtin_join
  split
  · simp
  · split <;> simp_all

/-- `builtin_def` on a non-empty argument list never reports an
empty-cell access. -/
theorem builtin_def_ne_empty (e : lenv) (x : lval) (rest : List lval) :
    (builtin_def e (x :: rest)).2 ≠ .error .emptyCell := by
  unfold builtin_def
  repeat' split
  all_goals simp_all

/-- `builtin_head` never reports a cell error at all. -/
theorem builtin_head_ne_error (e : lenv) (a : List lval) (k : rerr) :
    builtin_head e a ≠ .error k := by
  unfold builtin_head
  repeat' split
  all_goals simp

/-- `builtin_tail` never reports a cell error at all. -/
theorem builtin_tail_ne_error (e : lenv) (a : List lval) (k : rerr) :
    builtin_tail e a ≠ .error k := by
  unfold builtin_tail
  repeat' split
  all_goals simp

/-- `builtin_cons` never reports a cell error at all. -/
theorem builtin_cons_ne_error (e : lenv) (a : List lval) (k : rerr) :
    builtin_cons e a ≠ .error k := by
  unfold builtin_cons
  repeat' split
  all_goals simp

/-- `builtin_init` never reports a cell error at all. -/
theorem builtin_init_ne_error (e : lenv) (a : List lval) (k : rerr) :
    builtin_init e a ≠ .error k := by
  unfold builtin_init
  repeat' split
  all_goals simp

/-- `builtin_eval` only reports an empty-cell access if the evaluator it
recurses into does. -/
theorem builtin_eval_ne_empty (ev : lenv → lval → lenv × Except rerr lval)
    (hev : ∀ e' v', (ev e' v').2 ≠ .error .emptyCell) (e : lenv)
    (a : List lval) : (builtin_eval ev e a).2 ≠ .error .emptyCell := by
  unfold builtin_eval
  repeat' split
  all_goals first
  | exact hev _ _
  | simp

/-- `builtin_len` only reports an empty-cell access if the evaluator it
recurses into does. -/
theorem builtin_len_ne_empty (ev : lenv → lval → lenv × Except rerr lval)
    (hev : ∀ e' v', (ev e' v').2 ≠ .error .emptyCell) (e : lenv)
    (a : List lval) : (builtin_len ev e a).2 ≠ .error .emptyCell := by
  unfold builtin_len
  repeat' split
  all_goals first
  | exact hev _ _
  | simp

/-- Any builtin invoked on a non-empty argument list never reports an
empty-cell access, provided the evaluator it may recurse into does not. -/
theorem runBuiltin_ne_empty (ev : lenv → lval → lenv × Except rerr lval)
    (hev : ∀ e' v', (ev e' v').2 ≠ .error .emptyCell) (b : bid) (e : lenv)
    (x : lval) (rest : List lval) :
    (runBuiltin ev b e (x :: rest)).2 ≠ .error .emptyCell := by
  cases b with
  | badd => exact builtin_op_ne_empty e "+" x rest
  | bsub => exact builtin_op_ne_empty e "-" x rest
  | bmul => exact builtin_op_ne_empty e "*" x rest
  | bdiv => exact builtin_op_ne_empty e "/" x rest
  | bmod => exact builtin_op_ne_empty e "%" x rest
  | blist => simp [runBuiltin, builtin_list]
  | bhead => exact builtin_head_ne_error e (x :: rest) _
  | btail => exact builtin_tail_ne_error e (x :: rest) _
  | beval => exact builtin_eval_ne_empty ev hev e (x :: rest)
  | bjoin => exact builtin_join_ne_empty e x rest
  | bcons => exact builtin_cons_ne_error e (x :: rest) _
  | blen => exact builtin_len_ne_empty ev hev e (x :: rest)
  | binit => exact builtin_init_ne_error e (x :: rest) _
  | bdef => exact builtin_def_ne_empty e x rest

/-- The child-evaluation loop never reports an empty-cell access,
provided the evaluator does not. -/
theorem eval_children_ne_empty (ev : lenv → lval → lenv × Except rerr lval)
    (hev : ∀ e' v', (ev e' v').2 ≠ .error .emptyCell) :
    ∀ (e : lenv) (cs : List lval),
      (eval_children ev e cs).2 ≠ .error .emptyCell
  | e, [] => by simp [eval_children]
  | e, c :: cs => by
    unfold eval_children
    split
    · next e1 k heq =>
      have h1 := hev e c
      rw [heq] at h1
      simpa using h1
    · next e1 v heq =>
      split
      · next e2 k heq2 =>
        have h2 := eval_children_ne_empty ev hev e1 cs
        rw [heq2] at h2
        simpa using h2
      · simp

/-- The post-children phases of s-expression evaluation never report an
empty-cell access, provided the evaluator does not: the function branch
passes the argument list `a1 :: rest`, which is never empty. -/
theorem sexpr_post_ne_empty (ev : lenv → lval → lenv × Except rerr lval)
    (hev : ∀ e' v', (ev e' v').2 ≠ .error .emptyCell) (e : lenv)
    (vs : List lval) : (sexpr_post ev e vs).2 ≠ .error .emptyCell := by
  unfold sexpr_post
  split
  · simp
  · split
    · simp
    · simp
    · split
      · exact runBuiltin_ne_empty ev hev _ e _ _
      · simp

/-- The evaluator never reports an empty-cell access: every argument
list it hands a builtin is non-empty. -/
theorem lval_eval_ne_empty : ∀ (fuel : Nat) (e : lenv) (v : lval),
    (lval_eval fuel e v).2 ≠ .error .emptyCell
  | 0, e, v => by simp [lval_eval]
  | fuel + 1, e, v => by
    have hev : ∀ e' v', (lval_eval fuel e' v').2 ≠ .error .emptyCell :=
      fun e' v' => lval_eval_ne_empty fuel e' v'
    cases v with
    | sym s => simp [lval_eval]
    | sexpr cells =>
      show (lval_eval_sexpr (lval_eval fuel) e cells).2 ≠ .error .emptyCell
      unfold lval_eval_sexpr
      split
      · next e1 k heq =>
        have h1 := eval_children_ne_empty (lval_eval fuel) hev e cells
        rw [heq] at h1
        simpa using h1
      · exact sexpr_post_ne_empty _ hev _ _
    | num n => simp [lval_eval]
    | err m => simp [lval_eval]
    | fn f => simp [lval_eval]
    | qexpr cs => simp [lval_eval]

/-- C8: the evaluator only invokes a builtin on a non-empty argument
list (zero- and one-child s-expressions return earlier and only the head
is removed), and under that precondition the unchecked first-argument
removals in `builtin_op`, `builtin_join` and `builtin_def` never access
an empty cell array; consequently no evaluation ever reports an
empty-cell access. -/
theorem eval_no_empty_pop :
    (∀ (e : lenv) (a : List lval) (op : String), a ≠ [] →
      builtin_op e a op ≠ .error .emptyCell) ∧
    (∀ (e : lenv) (a : List lval), a ≠ [] →
      builtin_join e a ≠ .error .emptyCell) ∧
    (∀ (e : lenv) (a : List lval), a ≠ [] →
      (builtin_def e a).2 ≠ .error .emptyCell) ∧
    (∀ (fuel : Nat) (e : lenv) (v : lval),
      (lval_eval fuel e v).2 ≠ .error .emptyCell) := by
  refine ⟨?_, ?_, ?_, lval_eval_ne_empty⟩
  · intro e a op ha
    match a, ha with
    | x :: rest, _ => exact builtin_op_ne_empty e op x rest
  · intro e a ha
    match a, ha with
    | x :: rest, _ => exact builtin_join_ne_empty e x rest
  · intro e a ha
    match a, ha with
    | x :: rest, _ => exact builtin_def_ne_empty e x rest

/-- C8 witness: `builtin_op` at the one-element argument list `[1]`. -/
theorem eval_no_empty_pop_witness :
    ([lval.num 1] ≠ ([] : List lval)) ∧
    builtin_op [] [lval.num 1] "+" ≠ .error .emptyCell :=
  ⟨by simp, eval_no_empty_pop.1 [] [lval.num 1] "+" (by simp)⟩

/-- `noUF_list` in terms of membership. -/
theorem noUF_list_iff : ∀ (cs : List lval),
    noUF_list cs = true ↔ ∀ c ∈ cs, noUF c = true
  | [] => by simp [noUF_list]
  | c :: cs => by
    rw [noUF_list, Bool.and_eq_true, noUF_list_iff cs]
    simp [List.forall_mem_cons]

/-- `noUF_list` over an append. -/
theorem noUF_list_append : ∀ (l1 l2 : List lval),
    noUF_list (l1 ++ l2) = (noUF_list l1 && noUF_list l2)
  | [], l2 => by simp [noUF_list]
  | c :: l1, l2 => by
    rw [List.cons_append, noUF_list, noUF_list, noUF_list_append l1 l2,
      Bool.and_assoc]

/-- `noUF_list` is stable under `dropLast`. -/
theorem noUF_list_dropLast (cs : List lval) (h : noUF_list cs = true) :
    noUF_list cs.dropLast = true := by
  rw [noUF_list_iff] at h ⊢
  exact fun c hc => h c (List.dropLast_subset cs hc)

/-- A message of length other than 17 cannot truncate to the 17-character
string built only by the unreachable dispatcher. -/
theorem noUF_err_len {s : String} (h : 18 ≤ s.length) :
    noUF (lval_err s) = true := by
  unfold lval_err noUF
  simp only [bne_iff_ne, ne_eq]
  intro hcontra
  have h3 := congrArg String.length hcontra
  rw [strTake_length] at h3
  have hUF : ("Unknown Function!" : String).length = 17 := rfl
  rw [hUF] at h3
  omega

/-- Appending on the right preserves an 18-character lower bound. -/
theorem len18_append_left {p : String} (q : String) (h : 18 ≤ p.length) :
    18 ≤ (p ++ q).length := by
  rw [String.length_append]
  omega

/-- `builtin_head` only returns `noUF` values. -/
theorem builtin_head_noUF (e : lenv) (a : List lval) (ha : noUF_list a = true)
    (w : lval) (h : builtin_head e a = .ok w) : noUF w = true := by
  unfold builtin_head at h
  repeat' split at h
  all_goals cases h
  all_goals try (apply noUF_err_len; (repeat apply len18_append_left); decide)
  simp [noUF, noUF_list] at ha ⊢
  exact ha.1

/-- `builtin_tail` only returns `noUF` values. -/
theorem builtin_tail_noUF (e : lenv) (a : List lval) (ha : noUF_list a = true)
    (w : lval) (h : builtin_tail e a = .ok w) : noUF w = true := by
  unfold builtin_tail at h
  repeat' split at h
  all_goals cases h
  all_goals try (apply noUF_err_len; (repeat apply len18_append_left); decide)
  simp [noUF, noUF_list] at ha ⊢
  exact ha.2

/-- `builtin_init` only returns `noUF` values. -/
theorem builtin_init_noUF (e : lenv) (a : List lval) (ha : noUF_list a = true)
    (w : lval) (h : builtin_init e a = .ok w) : noUF w = true := by
  unfold builtin_init at h
  repeat' split at h
  all_goals cases h
  all_goals try (apply noUF_err_len; (repeat apply len18_append_left); decide)
  rename_i c cs
  show noUF_list (c :: cs).dropLast = true
  apply noUF_list_dropLast
  simp [noUF, noUF_list] at ha ⊢
  exact ha

/-- `builtin_cons` only returns `noUF` values. -/
theorem builtin_cons_noUF (e : lenv) (a : List lval) (ha : noUF_list a = true)
    (w : lval) (h : builtin_cons e a = .ok w) : noUF w = true := by
  unfold builtin_cons at h
  repeat' split at h
  all_goals cases h
  all_goals try (apply noUF_err_len; (repeat apply len18_append_left); decide)
  simp [noUF, noUF_list] at ha ⊢
  tauto

/-- `builtin_list` only returns `noUF` values. -/
theorem builtin_list_noUF (e : lenv) (a : List lval) (ha : noUF_list a = true)
    (w : lval) (h : builtin_list e a = .ok w) : noUF w = true := by
  cases h
  exact ha

/-- The operator loop only returns `noUF` values. -/
theorem op_loop_noUF (op : String) : ∀ (ys : List Int) (x : Int) (w : lval),
    op_loop op x ys = .ok w → noUF w = true
  | [], x, w, h => by cases h; rfl
  | y :: ys, x, w, h => by
    rw [op_loop] at h
    split at h
    · cases h; decide
    · split at h
      · cases h
      · exact op_loop_noUF op ys (op_apply op x y) w h

/-- `builtin_op` only returns `noUF` values. -/
theorem builtin_op_noUF (e : lenv) (a : List lval) (op : String)
    (w : lval) (h : builtin_op e a op = .ok w) : noUF w = true := by
  unfold builtin_op at h
  split at h
  · cases h; decide
  · split at h
    · cases h
    · split at h
      · cases h; rfl
      · exact op_loop_noUF op _ _ w h

/-- `lval_join` preserves `noUF`. -/
theorem lval_join_noUF (x y : lval) (hx : noUF x = true) (hy : noUF y = true) :
    noUF (lval_join x y) = true := by
  unfold lval_join
  split
  · next xs ys =>
    show noUF_list (xs ++ ys) = true
    rw [noUF_list_append]
    have hx' : noUF_list xs = true := hx
    have hy' : noUF_list ys = true := hy
    simp [hx', hy']
  · exact hx

/-- The join loop preserves `noUF`. -/
theorem join_loop_noUF : ∀ (rest : List lval) (x : lval), noUF x = true →
    noUF_list rest = true → noUF (join_loop x rest) = true
  | [], x, hx, _ => hx
  | y :: ys, x, hx, hr => by
    rw [join_loop]
    have h1 : noUF y = true ∧ noUF_list ys = true := by
      simpa [noUF_list, Bool.and_eq_true] using hr
    exact join_loop_noUF ys (lval_join x y) (lval_join_noUF x y hx h1.1) h1.2

/-- `builtin_join` only returns `noUF` values. -/
theorem builtin_join_noUF (e : lenv) (a : List lval) (ha : noUF_list a = true)
    (w : lval) (h : builtin_join e a = .ok w) : noUF w = true := by
  unfold builtin_join at h
  repeat' split at h
  all_goals cases h
  all_goals try (apply noUF_err_len; (repeat apply len18_append_left); decide)
  rename_i c cs heq
  have h1 : noUF c = true ∧ noUF_list cs = true := by
    simpa [noUF_list, Bool.and_eq_true] using ha
  exact join_loop_noUF cs c h1.1 h1.2

/-- `lenv_put` preserves `noUF` of every stored value. -/
theorem lenv_put_noUF : ∀ (e : lenv) (k v : lval), envNoUF e →
    noUF v = true → envNoUF (lenv_put e k v)
  | [], k, v, he, hv => by
    intro p hp
    rw [show lenv_put [] k v = [(k.symOf, lval_copy v)] from rfl,
      List.mem_singleton] at hp
    subst hp
    show noUF (lval_copy v) = true
    rw [copy_id]
    exact hv
  | (s, u) :: rest, k, v, he, hv => by
    intro p hp
    unfold lenv_put at hp
    by_cases hs : s = k.symOf
    · rw [if_pos hs] at hp
      rcases List.mem_cons.mp hp with rfl | hmem
      · show noUF (lval_copy v) = true
        rw [copy_id]
        exact hv
      · exact he p (List.mem_cons_of_mem _ hmem)
    · rw [if_neg hs] at hp
      rcases List.mem_cons.mp hp with rfl | hmem
      · exact he (s, u) (List.mem_cons_self _ _)
      · exact lenv_put_noUF rest k v
          (fun q hq => he q (List.mem_cons_of_mem _ hq)) hv p hmem

/-- The `def` assignment loop preserves `noUF` of every stored value. -/
theorem def_put_all_noUF : ∀ (e : lenv) (ss vs : List lval), envNoUF e →
    noUF_list vs = true → envNoUF (def_put_all e ss vs)
  | e, s :: ss, v :: vs, he, hv => by
    have h1 : noUF v = true ∧ noUF_list vs = true := by
      simpa [noUF_list, Bool.and_eq_true] using hv
    exact def_put_all_noUF (lenv_put e s v) ss vs
      (lenv_put_noUF e s v he h1.1) h1.2
  | e, [], vs, he, hv => he
  | e, _ :: _, [], he, hv => he

/-- `builtin_def` only returns `noUF` values and keeps the environment
`noUF`. -/
theorem builtin_def_noUF (e : lenv) (a : List lval) (he : envNoUF e)
    (ha : noUF_list a = true) (e2 : lenv) (w : lval)
    (h : builtin_def e a = (e2, .ok w)) : noUF w = true ∧ envNoUF e2 := by
  unfold builtin_def at h
  repeat' split at h
  all_goals cases h
  all_goals try exact ⟨by decide, he⟩
  · -- the successful binding branch
    refine ⟨rfl, def_put_all_noUF e _ _ he ?_⟩
    rw [noUF_list, Bool.and_eq_true] at ha
    exact ha.2
  · refine ⟨?_, he⟩
    apply noUF_err_len
    (repeat apply len18_append_left)
    decide

/-- `lenv_get` only returns `noUF` values from a `noUF` environment. -/
theorem lenv_get_noUF : ∀ (e : lenv) (k : lval), envNoUF e →
    noUF (lenv_get e k) = true
  | [], k, he => by
    apply noUF_err_len
    rw [show ("unbound symbol '" ++ k.symOf ++ "'!").length = k.symOf.length + 18
      from unbound_msg_length k.symOf]
    omega
  | (s, u) :: rest, k, he => by
    unfold lenv_get
    by_cases hs : s = k.symOf
    · rw [if_pos hs, copy_id]
      exact he (s, u) (List.mem_cons_self _ _)
    · rw [if_neg hs]
      exact lenv_get_noUF rest k (fun q hq => he q (List.mem_cons_of_mem _ hq))

/-- `builtin_eval` only returns `noUF` values and keeps the environment
`noUF`, provided the evaluator it recurses into does. -/
theorem builtin_eval_noUF (ev : lenv → lval → lenv × Except rerr lval)
    (hev : ∀ e v e2 w, envNoUF e → noUF v = true → ev e v = (e2, .ok w) →
      noUF w = true ∧ envNoUF e2)
    (e : lenv) (a : List lval) (he : envNoUF e) (ha : noUF_list a = true)
    (e2 : lenv) (w : lval) (h : builtin_eval ev e a = (e2, .ok w)) :
    noUF w = true ∧ envNoUF e2 := by
  unfold builtin_eval at h
  repeat' split at h
  · -- the recursive branch
    refine hev _ _ _ _ he ?_ h
    simp only [noUF, noUF_list, Bool.and_true] at ha ⊢
    exact ha
  all_goals cases h
  all_goals refine ⟨?_, he⟩
  all_goals apply noUF_err_len
  all_goals (repeat apply len18_append_left)
  all_goals decide

/-- `builtin_len` only returns `noUF` values and keeps the environment
`noUF`, provided the evaluator it recurses into does. -/
theorem builtin_len_noUF (ev : lenv → lval → lenv × Except rerr lval)
    (hev : ∀ e v e2 w, envNoUF e → noUF v = true → ev e v = (e2, .ok w) →
      noUF w = true ∧ envNoUF e2)
    (e : lenv) (a : List lval) (he : envNoUF e) (ha : noUF_list a = true)
    (e2 : lenv) (w : lval) (h : builtin_len ev e a = (e2, .ok w)) :
    noUF w = true ∧ envNoUF e2 := by
  unfold builtin_len at h
  repeat' split at h
  · refine hev _ _ _ _ he ?_ h
    rfl
  all_goals cases h
  all_goals refine ⟨?_, he⟩
  all_goals apply noUF_err_len
  all_goals (repeat apply len18_append_left)
  all_goals decide

/-- Every builtin returns `noUF` values and keeps the environment `noUF`,
provided the evaluator it may recurse into does. -/
theorem runBuiltin_noUF (ev : lenv → lval → lenv × Except rerr lval)
    (hev : ∀ e v e2 w, envNoUF e → noUF v = true → ev e v = (e2, .ok w) →
      noUF w = true ∧ envNoUF e2)
    (b : bid) (e : lenv) (a : List lval) (he : envNoUF e)
    (ha : noUF_list a = true) (e2 : lenv) (w : lval)
    (h : runBuiltin ev b e a = (e2, .ok w)) :
    noUF w = true ∧ envNoUF e2 := by
  cases b with
  | badd =>
    rw [runBuiltin, Prod.mk.injEq] at h
    exact ⟨builtin_op_noUF e a "+" w h.2, h.1 ▸ he⟩
  | bsub =>
    rw [runBuiltin, Prod.mk.injEq] at h
    exact ⟨builtin_op_noUF e a "-" w h.2, h.1 ▸ he⟩
  | bmul =>
    rw [runBuiltin, Prod.mk.injEq] at h
    exact ⟨builtin_op_noUF e a "*" w h.2, h.1 ▸ he⟩
  | bdiv =>
    rw [runBuiltin, Prod.mk.injEq] at h
    exact ⟨builtin_op_noUF e a "/" w h.2, h.1 ▸ he⟩
  | bmod =>
    rw [runBuiltin, Prod.mk.injEq] at h
    exact ⟨builtin_op_noUF e a "%" w h.2, h.1 ▸ he⟩
  | blist =>
    rw [runBuiltin, Prod.mk.injEq] at h
    exact ⟨builtin_list_noUF e a ha w h.2, h.1 ▸ he⟩
  | bhead =>
    rw [runBuiltin, Prod.mk.injEq] at h
    exact ⟨builtin_head_noUF e a ha w h.2, h.1 ▸ he⟩
  | btail =>
    rw [runBuiltin, Prod.mk.injEq] at h
    exact ⟨builtin_tail_noUF e a ha w h.2, h.1 ▸ he⟩
  | beval => exact builtin_eval_noUF ev hev e a he ha e2 w h
  | bjoin =>
    rw [runBuiltin, Prod.mk.injEq] at h
    exact ⟨builtin_join_noUF e a ha w h.2, h.1 ▸ he⟩
  | bcons =>
    rw [runBuiltin, Prod.mk.injEq] at h
    exact ⟨builtin_cons_noUF e a ha w h.2, h.1 ▸ he⟩
  | blen => exact builtin_len_noUF ev hev e a he ha e2 w h
  | binit =>
    rw [runBuiltin, Prod.mk.injEq] at h
    exact ⟨builtin_init_noUF e a ha w h.2, h.1 ▸ he⟩
  | bdef => exact builtin_def_noUF e a he ha e2 w h

/-- The child-evaluation loop preserves `noUF` of the results and of the
environment, provided the evaluator does. -/
theorem eval_children_noUF (ev : lenv → lval → lenv × Except rerr lval)
    (hev : ∀ e v e2 w, envNoUF e → noUF v = true → ev e v = (e2, .ok w) →
      noUF w = true ∧ envNoUF e2) :
    ∀ (e : lenv) (cs : List lval) (e2 : lenv) (vs : List lval),
      envNoUF e → noUF_list cs = true →
      eval_children ev e cs = (e2, .ok vs) →
      noUF_list vs = true ∧ envNoUF e2
  | e, [], e2, vs, he, hc, h => by
    cases h
    exact ⟨rfl, he⟩
  | e, c :: cs, e2, vs, he, hc, h => by
    rw [noUF_list, Bool.and_eq_true] at hc
    unfold eval_children at h
    split at h
    · simp at h
    · split at h
      · simp at h
      · cases h
        rename_i x1 e1 v heq1 x2 vs2 heq2
        have h1 := hev e c e1 v he hc.1 heq1
        have h2 := eval_children_noUF ev hev e1 cs e2 vs2 h1.2 hc.2 heq2
        exact ⟨by rw [noUF_list, Bool.and_eq_true]; exact ⟨h1.1, h2.1⟩, h2.2⟩

/-- The post-children phases of s-expression evaluation preserve `noUF`,
provided the evaluator the builtins recurse into does. -/
theorem sexpr_post_noUF (ev : lenv → lval → lenv × Except rerr lval)
    (hev : ∀ e v e2 w, envNoUF e → noUF v = true → ev e v = (e2, .ok w) →
      noUF w = true ∧ envNoUF e2)
    (e : lenv) (vs : List lval) (e2 : lenv) (w : lval) (he : envNoUF e)
    (hvs : noUF_list vs = true) (h : sexpr_post ev e vs = (e2, .ok w)) :
    noUF w = true ∧ envNoUF e2 := by
  unfold sexpr_post at h
  split at h
  · rename_i w2 hfind
    cases h
    exact ⟨(noUF_list_iff vs).mp hvs _ (List.mem_of_find?_eq_some hfind), he⟩
  · split at h
    · cases h
      exact ⟨rfl, he⟩
    · cases h
      exact ⟨(noUF_list_iff _).mp hvs _ (List.mem_singleton.mpr rfl), he⟩
    · split at h
      · refine runBuiltin_noUF ev hev _ e _ he ?_ e2 w h
        rw [noUF_list, Bool.and_eq_true] at hvs
        exact hvs.2
      · cases h
        refine ⟨by decide, he⟩

/-- Evaluation preserves `noUF`: if every environment value and the
input are free of the dispatcher's message, so are the result and the
final environment. -/
theorem lval_eval_noUF : ∀ (fuel : Nat) (e : lenv) (v : lval) (e2 : lenv)
    (w : lval), envNoUF e → noUF v = true →
    lval_eval fuel e v = (e2, .ok w) → noUF w = true ∧ envNoUF e2
  | 0, e, v, e2, w, he, hv, h => by simp [lval_eval] at h
  | fuel + 1, e, v, e2, w, he, hv, h => by
    have hev : ∀ e v e2 w, envNoUF e → noUF v = true →
        lval_eval fuel e v = (e2, .ok w) → noUF w = true ∧ envNoUF e2 :=
      fun e v e2 w he hv h => lval_eval_noUF fuel e v e2 w he hv h
    cases v with
    | sym s =>
      cases h
      exact ⟨lenv_get_noUF e (.sym s) he, he⟩
    | sexpr cells =>
      have h' : lval_eval_sexpr (lval_eval fuel) e cells = (e2, .ok w) := h
      unfold lval_eval_sexpr at h'
      split at h'
      · simp at h'
      · rename_i e1 vs heq
        have hch := eval_children_noUF (lval_eval fuel) hev e cells e1 vs he hv heq
        exact sexpr_post_noUF (lval_eval fuel) hev e1 vs e2 w hch.2 hch.1 h'
    | num n => cases h; exact ⟨hv, he⟩
    | err m => cases h; exact ⟨hv, he⟩
    | fn f => cases h; exact ⟨hv, he⟩
    | qexpr cs => cases h; exact ⟨hv, he⟩

/-- C10: the builtins environment is free of the "Unknown Function!"
message, and evaluation keeps environment and result free of it: the
string-keyed dispatcher `builtin` that constructs that message is
unreachable from the evaluator, and a misspelled function name instead
surfaces as an unbound-symbol error. -/
theorem eval_never_unknown_function :
    envNoUF e0 ∧
    (∀ (fuel : Nat) (e : lenv) (v : lval) (e2 : lenv) (w : lval),
      envNoUF e → noUF v = true → lval_eval fuel e v = (e2, .ok w) →
      noUF w = true ∧ envNoUF e2) ∧
    (lval_eval 3 e0 (.sexpr [.sym "notafn", .num 1]) =
      (e0, .ok (.err "unbound symbol 'notafn'!"))) := by
  refine ⟨?_, lval_eval_noUF, rfl⟩
  show ∀ p ∈ e0, noUF p.2 = true
  decide

/-- C10 witness: evaluating the number 1 in the empty environment. -/
theorem eval_never_unknown_function_witness :
    noUF (lval.num 1) = true ∧ envNoUF [] :=
  eval_never_unknown_function.2.1 1 [] (.num 1) [] (.num 1)
    (by intro p hp; cases hp) rfl rfl

end Lispy
